import Mathlib

/-!
Shallow embedding of `src/main.rs` of the `train_display` repository, and proofs
about its departure-resolution pipeline.

Modelling conventions:
* Calendar dates (`chrono::NaiveDate`) are day numbers in `Int`; `NaiveDateTime`
  timestamps are seconds in `Int`, with midnight of day `d` at `d * 86400`, so
  `date.and_hms_opt(0,0,0) + TimeDelta::seconds(off)` is `d * 86400 + off`.
  The date arithmetic in the source is `checked_`, failing only outside the
  representable calendar range; on `Int` it is total.
* `HashMap`s are association lists (the source iterates them in arbitrary hash
  order; here the order is the list order, and set-valued results are stated
  via membership).
* A `HashSet<String>` is its list of elements, with set-semantic insert/remove.
* Panics (`expect` on a missing `departure_time` / `trip_headsign`) are
  `Except.error` values propagated through the pipeline.
-/

namespace TrainDisplay

/-- Days of the week, as `chrono::Weekday`. -/
inductive Weekday
  | mon | tue | wed | thu | fri | sat | sun
deriving DecidableEq

/-- `chrono`'s `NaiveDate::weekday` as a function of the day number: a fixed
7-periodic function.  The epoch alignment (which residue is Monday) is
irrelevant to every claim. -/
def weekday (d : Int) : Weekday :=
  match (d % 7).toNat with
  | 0 => .mon
  | 1 => .tue
  | 2 => .wed
  | 3 => .thu
  | 4 => .fri
  | 5 => .sat
  | _ => .sun

/-- `gtfs_structures::Calendar`: the weekly recurrence flags and validity range
used by `service_ids_for`. -/
structure Calendar where
  monday : Bool
  tuesday : Bool
  wednesday : Bool
  thursday : Bool
  friday : Bool
  saturday : Bool
  sunday : Bool
  start_date : Int
  end_date : Int
deriving DecidableEq

/-- `gtfs_structures::Exception`, the calendar-exception type. -/
inductive Exception
  | Added
  | Deleted
deriving DecidableEq

/-- `gtfs_structures::CalendarDate` (the fields read by `service_ids_for`). -/
structure CalendarDate where
  date : Int
  exception_type : Exception
deriving DecidableEq

/-- `gtfs_structures::PickupDropOffType`. -/
inductive PickupDropOffType
  | Regular
  | NotAvailable
  | ArrangeByPhone
  | CoordinateWithDriver
  | Unknown (code : Int)
deriving DecidableEq

/-- `gtfs_structures::StopTime` (fields read by `main`): the referenced stop's
id, the pickup policy, and the optional departure offset in seconds since
midnight of the service day. -/
structure StopTime where
  stop_id : String
  pickup_type : PickupDropOffType
  departure_time : Option Int
deriving DecidableEq

/-- `gtfs_structures::Trip` (fields read by `main`). -/
structure Trip where
  service_id : String
  trip_headsign : Option String
  stop_times : List StopTime
deriving DecidableEq

/-- `gtfs_structures::Stop` (field read by `main`: the optional name). -/
structure Stop where
  name : Option String
deriving DecidableEq

/-- The static schedule `gtfs_structures::Gtfs`, with each `HashMap` modelled as
an association list. -/
structure Gtfs where
  calendar : List (String × Calendar)
  calendar_dates : List (String × List CalendarDate)
  stops : List (String × Stop)
  trips : List (String × Trip)
deriving DecidableEq

/-- `HashSet::insert`: add an element unless already present. -/
def hsInsert (s : List String) (x : String) : List String :=
  if x ∈ s then s else x :: s

/-- `HashSet::remove`: drop an element. -/
def hsRemove (s : List String) (x : String) : List String :=
  s.filter (fun y => y != x)

/-- `collect::<HashSet<_>>()`: the set of elements of a list. -/
def hsOfList (l : List String) : List String :=
  l.foldl hsInsert []

/-- The `match weekday { ... }` in `service_ids_for`, selecting the calendar's
flag for a weekday. -/
def weekdayFlag (c : Calendar) : Weekday → Bool
  | .mon => c.monday
  | .tue => c.tuesday
  | .wed => c.wednesday
  | .thu => c.thursday
  | .fri => c.friday
  | .sat => c.saturday
  | .sun => c.sunday

/-- One step of the exception loop in `service_ids_for`:
`if calendar_date.date != date { continue; }` then
`match exception_type { Added => insert, Deleted => remove }`. -/
def applyCalendarDate (service_id : String) (date : Int) (s : List String)
    (cd : CalendarDate) : List String :=
  if cd.date = date then
    match cd.exception_type with
    | .Added => hsInsert s service_id
    | .Deleted => hsRemove s service_id
  else s

/-- `service_ids_for` from `src/main.rs`: the ids whose weekday flag holds and
whose validity range contains `date`, collected into a `HashSet`, then the
exception loop over `calendar_dates`.  The source returns the set as a `Vec`
in arbitrary order; claims about the result are stated via membership. -/
def service_ids_for (gtfs : Gtfs) (date : Int) : List String :=
  let valid_ids := hsOfList
    ((gtfs.calendar.filter (fun p =>
        weekdayFlag p.2 (weekday date) &&
        (decide (p.2.start_date ≤ date) && decide (date ≤ p.2.end_date)))).map
      (fun p => p.1))
  gtfs.calendar_dates.foldl
    (fun s p => p.2.foldl (applyCalendarDate p.1 date) s) valid_ids

/-- `gtfs_realtime::StopTimeEvent` (field read: the optional delay, seconds). -/
structure StopTimeEvent where
  delay : Option Int
deriving DecidableEq

/-- `gtfs_realtime::StopTimeUpdate` (fields read by `main`). -/
structure StopTimeUpdate where
  stop_id : Option String
  departure : Option StopTimeEvent
deriving DecidableEq

/-- `gtfs_realtime::TripDescriptor` (field read: the optional trip id). -/
structure TripDescriptor where
  trip_id : Option String
deriving DecidableEq

/-- `gtfs_realtime::TripUpdate` (fields read by `main`). -/
structure TripUpdate where
  trip : TripDescriptor
  stop_time_update : List StopTimeUpdate
deriving DecidableEq

/-- `gtfs_realtime::FeedEntity` (field read: the optional trip update). -/
structure FeedEntity where
  trip_update : Option TripUpdate
deriving DecidableEq

/-- `gtfs_realtime::FeedMessage`: the decoded real-time feed. -/
structure FeedMessage where
  entity : List FeedEntity
deriving DecidableEq

/-- The inner `find_map` closure of the delay lookup, per stop-time update:
`stop_ids.contains(&(stop.stop_id.clone()?))`
`.then(|| stop.departure.iter().find_map(|event| event.delay))`.
Note that `bool::then` wraps the (possibly absent) delay in `Some` as soon as
the stop id matches, stopping the enclosing `find_map` there. -/
def stopDelayStep (stop_ids : List String) (stop : StopTimeUpdate) :
    Option (Option Int) :=
  stop.stop_id.bind (fun sid =>
    if sid ∈ stop_ids then some (stop.departure.bind (fun event => event.delay))
    else none)

/-- The delay-lookup closure of `main`: scan feed entities for a trip update
whose trip id equals `trip_id`, then run the inner `find_map` over its
stop-time updates.  The value has type `Option<Option<i32>>` and is
`flatten`ed by the caller. -/
def findDelay (feed : FeedMessage) (stop_ids : List String) (trip_id : String) :
    Option (Option Int) :=
  feed.entity.findSome? (fun entity =>
    entity.trip_update.bind (fun update =>
      update.trip.trip_id.bind (fun id =>
        if trip_id ≠ id then none
        else update.stop_time_update.findSome? (stopDelayStep stop_ids))))

/-- A resolved departure: the `(trip_id, NaiveDateTime, headsign)` tuple
flowing through the iterator chain of `main`. -/
structure Departure where
  trip_id : String
  time : Int
  headsign : String
deriving DecidableEq

/-- The delay-application step of the `map` closure in `main`:
`match delay.flatten() { None => (), Some(d) => time += d }`. -/
def applyDelay (feed : FeedMessage) (stop_ids : List String) (dep : Departure) :
    Departure :=
  match (findDelay feed stop_ids dep.trip_id).join with
  | none => dep
  | some d => { dep with time := dep.time + d }

/-- The station filter in `main`, producing `stop_ids`:
stops whose name equals the requested station name. -/
def stopIdsFor (gtfs : Gtfs) (station_name : String) : List String :=
  (gtfs.stops.filter (fun p =>
    match p.2.name with
    | some name => name == station_name
    | none => false)).map (fun p => p.1)

/-- The per-trip stop-visit filter in `main`:
`stop_ids.contains(&stop_time.stop.id) && stop_time.pickup_type != NotAvailable`. -/
def boardingStops (stop_ids : List String) (trip : Trip) : List StopTime :=
  trip.stop_times.filter (fun stop_time =>
    decide (stop_time.stop_id ∈ stop_ids) &&
    !decide (stop_time.pickup_type = PickupDropOffType.NotAvailable))

/-- The candidate-date filter in `main`:
`[yesterday, today, tomorrow].iter().filter(|date| service_ids_for(..).contains(&trip.service_id))`. -/
def activeDates (gtfs : Gtfs) (trip : Trip) (dates : List Int) : List Int :=
  dates.filter (fun date => decide (trip.service_id ∈ service_ids_for gtfs date))

/-- The record built for one (stop-visit, active date) pair.  The source panics
(`expect`) on a missing `departure_time` or `trip_headsign`; panics are
modelled as `Except.error`, in the source's evaluation order. -/
def resolveDeparture (trip_id : String) (trip : Trip) (stop_time : StopTime)
    (date : Int) : Except String Departure :=
  match stop_time.departure_time with
  | none => .error "no departure_time"
  | some offset =>
    match trip.trip_headsign with
    | none => .error "No headsign"
    | some headsign =>
      .ok { trip_id := trip_id, time := date * 86400 + offset, headsign := headsign }

/-- Every (trip id, trip, stop-visit, candidate date) tuple the iterator chain
of `main` expands: each trip, its boarding stop-visits at the station, and the
dates on which its service pattern is active, flattened in iteration order. -/
def selectedVisits (gtfs : Gtfs) (stop_ids : List String) (dates : List Int) :
    List (String × Trip × StopTime × Int) :=
  gtfs.trips.flatMap (fun p =>
    (boardingStops stop_ids p.2).flatMap (fun stop_time =>
      (activeDates gtfs p.2 dates).map (fun date => (p.1, p.2, stop_time, date))))

/-- Sequence per-record results, propagating the first panic (`Except.error`)
as the outcome of the whole collection. -/
def collectExcept {α β : Type} (f : α → Except String β) :
    List α → Except String (List β)
  | [] => .ok []
  | a :: l =>
    match f a with
    | .error e => .error e
    | .ok b =>
      match collectExcept f l with
      | .error e => .error e
      | .ok r => .ok (b :: r)

/-- The Departure Expander: the iterator chain of `main` up to (and not
including) the delay `map`, producing one resolved departure per selected
(stop-visit, active date) pair, or the first data-integrity error. -/
def expand (gtfs : Gtfs) (stop_ids : List String) (dates : List Int) :
    Except String (List Departure) :=
  collectExcept (fun q => resolveDeparture q.1 q.2.1 q.2.2.1 q.2.2.2)
    (selectedVisits gtfs stop_ids dates)

instance {ε α : Type} [DecidableEq ε] [DecidableEq α] :
    DecidableEq (Except ε α) := fun x y =>
  match x, y with
  | .error a, .error b =>
    if h : a = b then .isTrue (by rw [h]) else .isFalse (by simp [h])
  | .ok a, .ok b =>
    if h : a = b then .isTrue (by rw [h]) else .isFalse (by simp [h])
  | .error _, .ok _ => .isFalse (by simp)
  | .ok _, .error _ => .isFalse (by simp)

/-- `DAY_TRANSITION`: 02:00:00 as seconds of day. -/
def DAY_TRANSITION : Int := 7200

/-- The display window's upper bound in `main`:
`if current_time > DAY_TRANSITION { tomorrow.and_time(..) } else { today.and_time(..) }`. -/
def upperBound (today tomorrow current_time : Int) : Int :=
  if DAY_TRANSITION < current_time then tomorrow * 86400 + DAY_TRANSITION
  else today * 86400 + DAY_TRANSITION

/-- The window filter of `main`:
`*time >= current_naive && *time <= (cutoff instant)`. -/
def windowFilter (current_naive ub : Int) (deps : List Departure) :
    List Departure :=
  deps.filter (fun dep => decide (current_naive ≤ dep.time) && decide (dep.time ≤ ub))

instance : DecidableRel (fun a b : Departure => a.time ≤ b.time) :=
  fun a b => Int.decLe a.time b.time

instance : IsTotal Departure (fun a b => a.time ≤ b.time) :=
  ⟨fun a b => Int.le_total a.time b.time⟩

instance : IsTrans Departure (fun a b => a.time ≤ b.time) :=
  ⟨fun _ _ _ hab hbc => le_trans hab hbc⟩

/-- `valid_stops.sort_by(|a, b| time_a.cmp(time_b))`: Rust's `sort_by` is a
stable sort; it is modelled by the (stable) insertion sort on the timestamp
comparison. -/
def sortDeps (deps : List Departure) : List Departure :=
  deps.insertionSort (fun a b => a.time ≤ b.time)

/-- The whole pipeline of `main` after stop-id resolution: expand the schedule
over the three candidate dates, apply real-time delays, filter to the display
window, and sort by timestamp. -/
def pipeline (gtfs : Gtfs) (feed : FeedMessage) (stop_ids : List String)
    (yesterday today tomorrow current_naive current_time : Int) :
    Except String (List Departure) :=
  (expand gtfs stop_ids [yesterday, today, tomorrow]).map (fun deps =>
    sortDeps (windowFilter current_naive (upperBound today tomorrow current_time)
      (deps.map (applyDelay feed stop_ids))))

/-- Spec §4.1, base rule: some calendar entry for this service id has the
weekday flag set and its validity range contains the date. -/
def baseActive (gtfs : Gtfs) (service_id : String) (date : Int) : Bool :=
  gtfs.calendar.any (fun p =>
    p.1 == service_id &&
    (weekdayFlag p.2 (weekday date) &&
      (decide (p.2.start_date ≤ date) && decide (date ≤ p.2.end_date))))

/-- The date-matching exception types recorded under a key in a
`calendar_dates` table, in iteration order. -/
def dateExcsOf (cds : List (String × List CalendarDate)) (service_id : String)
    (date : Int) : List Exception :=
  (cds.filter (fun p => p.1 == service_id)).flatMap (fun p =>
    (p.2.filter (fun cd => cd.date == date)).map (fun cd => cd.exception_type))

/-- The date-matching exception types recorded for a service id in a schedule. -/
def dateExceptions (gtfs : Gtfs) (service_id : String) (date : Int) :
    List Exception :=
  dateExcsOf gtfs.calendar_dates service_id date

/-- Spec §4.1, one dated override applied to a membership bit: `Added` inserts
the id, `Removed` removes it, in either case regardless of the previous state. -/
def overrideExc (_previous : Bool) (e : Exception) : Bool :=
  match e with
  | .Added => true
  | .Deleted => false

/-- The first stop-time update of a trip update whose stop id is in `stop_ids`. -/
def firstMatchingStop (stop_ids : List String) (update : TripUpdate) :
    Option StopTimeUpdate :=
  update.stop_time_update.find? (fun stop =>
    match stop.stop_id with
    | some sid => decide (sid ∈ stop_ids)
    | none => false)

/-- What the delay lookup actually computes (C3 amended): the departure delay,
if present, of the first stop-id-matching stop-time update, taken from the
first trip-id-matching entity that contains such an update. -/
def matchDelayAmended (feed : FeedMessage) (stop_ids : List String)
    (trip_id : String) : Option Int :=
  (feed.entity.findSome? (fun entity =>
    entity.trip_update.bind (fun update =>
      update.trip.trip_id.bind (fun id =>
        if trip_id ≠ id then none
        else firstMatchingStop stop_ids update)))).bind
    (fun stop => stop.departure.bind (fun event => event.delay))

/-- The Realtime Matcher as claim C3 words it: within the first feed entity
whose trip update carries the requested trip id, the delay of the first
stop-time update whose stop id is in `stop_ids` AND whose departure carries a
delay value. -/
def matchDelayClaimed (feed : FeedMessage) (stop_ids : List String)
    (trip_id : String) : Option Int :=
  (feed.entity.find? (fun entity =>
    match entity.trip_update with
    | some update => update.trip.trip_id == some trip_id
    | none => false)).bind (fun entity =>
    entity.trip_update.bind (fun update =>
      update.stop_time_update.findSome? (fun stop =>
        match stop.stop_id, stop.departure.bind (fun event => event.delay) with
        | some sid, some d => if sid ∈ stop_ids then some d else none
        | _, _ => none)))

/-- Fixture: a service pattern running only on day 0 (a `.mon` in this
encoding): the Monday flag is set and the validity range is `[0, 0]`. -/
def calMon : Calendar :=
  { monday := true, tuesday := false, wednesday := false, thursday := false,
    friday := false, saturday := false, sunday := false,
    start_date := 0, end_date := 0 }

/-- Fixture: a service pattern running only on day 1 (a `.tue`): the Tuesday
flag is set and the validity range is `[1, 1]`. -/
def calTue : Calendar :=
  { monday := false, tuesday := true, wednesday := false, thursday := false,
    friday := false, saturday := false, sunday := false,
    start_date := 1, end_date := 1 }

/-- Fixture for C1: one trip at stop `S` with departure offset 90000 seconds
(25:00:00) on a pattern active only on day 0 (the `yesterday` candidate). -/
def gtfsEx1 : Gtfs :=
  { calendar := [("sv", calMon)], calendar_dates := [],
    stops := [("S", { name := some "Gare" })],
    trips := [("T", { service_id := "sv", trip_headsign := some "Dest",
                      stop_times := [{ stop_id := "S", pickup_type := .Regular,
                                       departure_time := some 90000 }] })] }

/-- Fixture: an empty real-time feed. -/
def feedNone : FeedMessage := { entity := [] }

/-- Fixture for C3: a trip update for trip `T` whose first stop-id-matching
stop-time update carries no delay, while the second carries delay 60. -/
def feedEx3 : FeedMessage :=
  ⟨[⟨some ⟨⟨some "T"⟩,
      [⟨some "S", some ⟨none⟩⟩, ⟨some "S", some ⟨some 60⟩⟩]⟩⟩]⟩

/-- Fixture for C4: a trip update for trip `T` reporting delay 120 at stop `S`. -/
def feedEx4 : FeedMessage :=
  ⟨[⟨some ⟨⟨some "T"⟩, [⟨some "S", some ⟨some 120⟩⟩]⟩⟩]⟩

/-- Fixture for C6: three trips at stop `S` on the day-1 pattern, with offsets
08:05, 08:00, 08:10 (in that input order). -/
def gtfsEx6 : Gtfs :=
  { calendar := [("sv", calTue)], calendar_dates := [],
    stops := [("S", { name := some "Gare" })],
    trips :=
      [("A", { service_id := "sv", trip_headsign := some "H",
               stop_times := [{ stop_id := "S", pickup_type := .Regular,
                                departure_time := some 29100 }] }),
       ("B", { service_id := "sv", trip_headsign := some "H",
               stop_times := [{ stop_id := "S", pickup_type := .Regular,
                                departure_time := some 28800 }] }),
       ("C", { service_id := "sv", trip_headsign := some "H",
               stop_times := [{ stop_id := "S", pickup_type := .Regular,
                                departure_time := some 29400 }] })] }

/-- Fixture: the departures `expand` yields for `gtfsEx6` over days 0..2. -/
def preEx6 : List Departure :=
  [{ trip_id := "A", time := 115500, headsign := "H" },
   { trip_id := "B", time := 115200, headsign := "H" },
   { trip_id := "C", time := 115800, headsign := "H" }]

/-- Fixture for C7: a boarding stop-visit on an active pattern whose
`departure_time` is missing. -/
def gtfsEx7 : Gtfs :=
  { calendar := [("sv", calMon)], calendar_dates := [],
    stops := [("S", { name := some "Gare" })],
    trips := [("T", { service_id := "sv", trip_headsign := some "H",
                      stop_times := [{ stop_id := "S", pickup_type := .Regular,
                                       departure_time := none }] })] }

/-- Fixture for C8: station `Gare` has two platform stop ids `S1`, `S2`, and
trip `T` (incorrectly) visits both with the same departure offset. -/
def gtfsEx8 : Gtfs :=
  { calendar := [("sv", calTue)], calendar_dates := [],
    stops := [("S1", { name := some "Gare" }), ("S2", { name := some "Gare" })],
    trips := [("T", { service_id := "sv", trip_headsign := some "H",
                      stop_times :=
                        [{ stop_id := "S1", pickup_type := .Regular,
                           departure_time := some 28800 },
                         { stop_id := "S2", pickup_type := .Regular,
                           departure_time := some 28800 }] })] }

theorem mem_hsInsert {x y : String} {s : List String} :
    x ∈ hsInsert s y ↔ x = y ∨ x ∈ s := by
  unfold hsInsert
  by_cases h : y ∈ s
  · rw [if_pos h]
    constructor
    · exact Or.inr
    · rintro (rfl | hx)
      · exact h
      · exact hx
  · rw [if_neg h]
    exact List.mem_cons

theorem mem_hsRemove {x y : String} {s : List String} :
    x ∈ hsRemove s y ↔ x ∈ s ∧ x ≠ y := by
  simp [hsRemove, List.mem_filter]

theorem mem_foldl_hsInsert (l : List String) :
    ∀ (s : List String) (x : String), x ∈ l.foldl hsInsert s ↔ x ∈ s ∨ x ∈ l := by
  induction l with
  | nil => simp
  | cons a l ih =>
    intro s x
    simp only [List.foldl_cons, ih, mem_hsInsert, List.mem_cons]
    tauto

theorem mem_hsOfList {l : List String} {x : String} : x ∈ hsOfList l ↔ x ∈ l := by
  simp [hsOfList, mem_foldl_hsInsert]

theorem mem_applyCalendarDate_ne {k x : String} (hk : k ≠ x) (date : Int)
    (s : List String) (cd : CalendarDate) :
    x ∈ applyCalendarDate k date s cd ↔ x ∈ s := by
  obtain ⟨cdd, cde⟩ := cd
  unfold applyCalendarDate
  by_cases hd : cdd = date
  · subst hd
    rw [if_pos rfl]
    cases cde
    · rw [show (match Exception.Added with
          | .Added => hsInsert s k
          | .Deleted => hsRemove s k) = hsInsert s k from rfl, mem_hsInsert]
      constructor
      · rintro (h | h)
        · exact absurd h.symm hk
        · exact h
      · exact Or.inr
    · rw [show (match Exception.Deleted with
          | .Added => hsInsert s k
          | .Deleted => hsRemove s k) = hsRemove s k from rfl, mem_hsRemove]
      constructor
      · exact fun h => h.1
      · exact fun h => ⟨h, fun e => hk e.symm⟩
  · simp [hd]

theorem decide_mem_applyCalendarDate_self (x : String) (date : Int)
    (s : List String) (cd : CalendarDate) (hd : cd.date = date) :
    decide (x ∈ applyCalendarDate x date s cd) =
      overrideExc (decide (x ∈ s)) cd.exception_type := by
  obtain ⟨cdd, cde⟩ := cd
  subst hd
  unfold applyCalendarDate
  cases cde
  · simp [overrideExc, mem_hsInsert]
  · simp [overrideExc, mem_hsRemove]

theorem mem_foldl_applyCalendarDate (k : String) (date : Int)
    (l : List CalendarDate) :
    ∀ (s : List String) (x : String),
      x ∈ l.foldl (applyCalendarDate k date) s ↔
        (if k = x then
          ((l.filter (fun cd => cd.date == date)).map
            (fun cd => cd.exception_type)).foldl overrideExc (decide (x ∈ s)) = true
        else x ∈ s) := by
  induction l with
  | nil =>
    intro s x
    by_cases h : k = x <;> simp [h]
  | cons cd l ih =>
    intro s x
    rw [List.foldl_cons, ih]
    by_cases hk : k = x
    · subst hk
      rw [if_pos rfl, if_pos rfl]
      by_cases hd : cd.date = date
      · rw [decide_mem_applyCalendarDate_self k date s cd hd,
          List.filter_cons_of_pos (by simpa using hd), List.map_cons, List.foldl_cons]
      · rw [List.filter_cons_of_neg (by simpa using hd)]
        have : applyCalendarDate k date s cd = s := by
          unfold applyCalendarDate
          rw [if_neg hd]
        rw [this]
    · rw [if_neg hk, if_neg hk, mem_applyCalendarDate_ne hk]

theorem mem_excFold (date : Int) (cds : List (String × List CalendarDate)) :
    ∀ (s : List String) (x : String),
      x ∈ cds.foldl (fun s p => p.2.foldl (applyCalendarDate p.1 date) s) s ↔
        (dateExcsOf cds x date).foldl overrideExc (decide (x ∈ s)) = true := by
  induction cds with
  | nil =>
    intro s x
    simp [dateExcsOf]
  | cons p cds ih =>
    intro s x
    rw [List.foldl_cons, ih]
    by_cases hk : p.1 = x
    · have hops : dateExcsOf (p :: cds) x date =
          ((p.2.filter (fun cd => cd.date == date)).map
            (fun cd => cd.exception_type)) ++ dateExcsOf cds x date := by
        unfold dateExcsOf
        rw [List.filter_cons_of_pos (by simpa using hk), List.flatMap_cons]
      have hmem := mem_foldl_applyCalendarDate p.1 date p.2 s x
      rw [if_pos hk] at hmem
      have hdec : decide (x ∈ p.2.foldl (applyCalendarDate p.1 date) s) =
          ((p.2.filter (fun cd => cd.date == date)).map
            (fun cd => cd.exception_type)).foldl overrideExc (decide (x ∈ s)) := by
        rw [Bool.eq_iff_iff]
        simp only [decide_eq_true_iff, hmem]
      rw [hops, List.foldl_append, hdec]
    · have hops : dateExcsOf (p :: cds) x date = dateExcsOf cds x date := by
        unfold dateExcsOf
        rw [List.filter_cons_of_neg (by simpa using hk)]
      have hmem := mem_foldl_applyCalendarDate p.1 date p.2 s x
      rw [if_neg hk] at hmem
      have hdec : decide (x ∈ p.2.foldl (applyCalendarDate p.1 date) s) =
          decide (x ∈ s) := by
        rw [Bool.eq_iff_iff]
        simp only [decide_eq_true_iff, hmem]
      rw [hops, hdec]

theorem decide_mem_base (gtfs : Gtfs) (date : Int) (x : String) :
    decide (x ∈ hsOfList
      ((gtfs.calendar.filter (fun p =>
          weekdayFlag p.2 (weekday date) &&
          (decide (p.2.start_date ≤ date) && decide (date ≤ p.2.end_date)))).map
        (fun p => p.1))) = baseActive gtfs x date := by
  rw [Bool.eq_iff_iff]
  simp only [decide_eq_true_iff, mem_hsOfList, List.mem_map, List.mem_filter,
    baseActive, List.any_eq_true, Bool.and_eq_true, beq_iff_eq]
  constructor
  · rintro ⟨p, ⟨hp, hflags⟩, hfst⟩
    exact ⟨p, hp, hfst, by simpa using hflags⟩
  · rintro ⟨p, hp, hfst, hflags⟩
    exact ⟨p, ⟨hp, by simpa using hflags⟩, hfst⟩

/-- C2: `service_ids_for` returns a service-pattern id iff the base rule (the
weekday recurrence flag for the date's weekday holds and the date lies within
the validity range), overridden in order by the exception records with an
exact date match: `Added` inserts the id even if not weekday-valid, `Deleted`
removes it even if weekday-valid, and a `Deleted` exception on a date where
the id is already absent leaves it absent (`overrideExc` ignores the previous
state). -/
theorem service_ids_for_spec (gtfs : Gtfs) (date : Int) (service_id : String) :
    service_id ∈ service_ids_for gtfs date ↔
      (dateExceptions gtfs service_id date).foldl overrideExc
        (baseActive gtfs service_id date) = true := by
  unfold service_ids_for dateExceptions
  rw [mem_excFold, decide_mem_base]

/-- C9: the Calendar Resolver's exception application is idempotent: a
same-date exception record occurring twice in a service id's exception list
yields the same resolver result as when it occurs once. -/
theorem service_ids_for_dup_exception (cal : List (String × Calendar))
    (cds1 cds2 : List (String × List CalendarDate)) (k : String)
    (l1 l2 : List CalendarDate) (r : CalendarDate)
    (stops : List (String × Stop)) (trips : List (String × Trip)) (date : Int)
    (hdate : r.date = date) :
    service_ids_for ⟨cal, cds1 ++ (k, l1 ++ r :: r :: l2) :: cds2, stops, trips⟩ date =
      service_ids_for ⟨cal, cds1 ++ (k, l1 ++ r :: l2) :: cds2, stops, trips⟩ date := by
  have hidem : ∀ (s : List String),
      applyCalendarDate k date (applyCalendarDate k date s r) r =
        applyCalendarDate k date s r := by
    intro s
    obtain ⟨rd, re⟩ := r
    unfold applyCalendarDate
    by_cases hd : rd = date
    · rw [if_pos hd, if_pos hd]
      cases re
      · show hsInsert (hsInsert s k) k = hsInsert s k
        unfold hsInsert
        by_cases hks : k ∈ s
        · rw [if_pos hks, if_pos hks]
        · rw [if_neg hks, if_pos (List.mem_cons_self k s)]
      · show hsRemove (hsRemove s k) k = hsRemove s k
        unfold hsRemove
        rw [List.filter_filter]
        simp
    · rw [if_neg hd, if_neg hd]
  unfold service_ids_for
  simp only [List.foldl_append, List.foldl_cons, hidem]

theorem service_ids_for_dup_exception_witness :
    service_ids_for ⟨[("sv", calMon)],
        [("sv", [⟨0, .Deleted⟩, ⟨0, .Deleted⟩])], [], []⟩ 0 =
      service_ids_for ⟨[("sv", calMon)], [("sv", [⟨0, .Deleted⟩])], [], []⟩ 0 :=
  service_ids_for_dup_exception [("sv", calMon)] [] [] "sv" [] []
    ⟨0, .Deleted⟩ [] [] 0 rfl

theorem collectExcept_ok_mem {α β : Type} {f : α → Except String β}
    {l : List α} {r : List β} (h : collectExcept f l = .ok r) (b : β) :
    b ∈ r ↔ ∃ a ∈ l, f a = .ok b := by
  induction l generalizing r with
  | nil =>
    unfold collectExcept at h
    cases h
    simp
  | cons a l ih =>
    unfold collectExcept at h
    cases hfa : f a with
    | error e => rw [hfa] at h; cases h
    | ok b0 =>
      rw [hfa] at h
      cases hrec : collectExcept f l with
      | error e => rw [hrec] at h; cases h
      | ok r0 =>
        rw [hrec] at h
        cases h
        simp only [List.mem_cons, ih hrec]
        constructor
        · rintro (rfl | ⟨a1, ha1, hfa1⟩)
          · exact ⟨a, Or.inl rfl, hfa⟩
          · exact ⟨a1, Or.inr ha1, hfa1⟩
        · rintro ⟨a1, (rfl | ha1), hfa1⟩
          · rw [hfa] at hfa1
            cases hfa1
            exact Or.inl rfl
          · exact Or.inr ⟨a1, ha1, hfa1⟩

theorem collectExcept_ok_forall {α β : Type} {f : α → Except String β}
    {l : List α} {r : List β} (h : collectExcept f l = .ok r) :
    ∀ a ∈ l, ∃ b, f a = .ok b := by
  induction l generalizing r with
  | nil => simp
  | cons a l ih =>
    unfold collectExcept at h
    cases hfa : f a with
    | error e => rw [hfa] at h; cases h
    | ok b0 =>
      rw [hfa] at h
      cases hrec : collectExcept f l with
      | error e => rw [hrec] at h; cases h
      | ok r0 =>
        intro a1 ha1
        rw [List.mem_cons] at ha1
        rcases ha1 with rfl | ha1
        · exact ⟨b0, hfa⟩
        · exact ih hrec a1 ha1

theorem collectExcept_ok_length {α β : Type} {f : α → Except String β}
    {l : List α} {r : List β} (h : collectExcept f l = .ok r) :
    r.length = l.length := by
  induction l generalizing r with
  | nil =>
    unfold collectExcept at h
    cases h
    rfl
  | cons a l ih =>
    unfold collectExcept at h
    cases hfa : f a with
    | error e => rw [hfa] at h; cases h
    | ok b0 =>
      rw [hfa] at h
      cases hrec : collectExcept f l with
      | error e => rw [hrec] at h; cases h
      | ok r0 =>
        rw [hrec] at h
        cases h
        simp [ih hrec]

theorem mem_selectedVisits {gtfs : Gtfs} {stop_ids : List String}
    {dates : List Int} {trip_id : String} {trip : Trip} {stop_time : StopTime}
    {date : Int} :
    (trip_id, trip, stop_time, date) ∈ selectedVisits gtfs stop_ids dates ↔
      (trip_id, trip) ∈ gtfs.trips ∧ stop_time ∈ trip.stop_times ∧
        stop_time.stop_id ∈ stop_ids ∧
        stop_time.pickup_type ≠ PickupDropOffType.NotAvailable ∧
        date ∈ dates ∧ trip.service_id ∈ service_ids_for gtfs date := by
  unfold selectedVisits boardingStops activeDates
  simp only [List.mem_flatMap, List.mem_map, List.mem_filter, Bool.and_eq_true,
    Bool.not_eq_true', decide_eq_true_iff, decide_eq_false_iff_not, Prod.mk.injEq]
  constructor
  · rintro ⟨p, hp, st, ⟨hst, hsid, hpick⟩, d, ⟨hd, hact⟩, h1, h2, h3, h4⟩
    subst h1 h3 h4
    obtain ⟨pa, pb⟩ := p
    cases h2
    exact ⟨hp, hst, hsid, hpick, hd, hact⟩
  · rintro ⟨hp, hst, hsid, hpick, hd, hact⟩
    exact ⟨(trip_id, trip), hp, stop_time, ⟨hst, hsid, hpick⟩, date,
      ⟨hd, hact⟩, rfl, rfl, rfl, rfl⟩

theorem resolveDeparture_ok {trip_id : String} {trip : Trip}
    {stop_time : StopTime} {date : Int} {dep : Departure} :
    resolveDeparture trip_id trip stop_time date = .ok dep ↔
      ∃ offset headsign, stop_time.departure_time = some offset ∧
        trip.trip_headsign = some headsign ∧
        dep = ⟨trip_id, date * 86400 + offset, headsign⟩ := by
  unfold resolveDeparture
  cases hdt : stop_time.departure_time with
  | none => simp
  | some offset =>
    cases hhs : trip.trip_headsign with
    | none => simp
    | some headsign =>
      constructor
      · intro h
        cases h
        exact ⟨offset, headsign, rfl, rfl, rfl⟩
      · rintro ⟨o, hs, ho, hh, rfl⟩
        cases ho
        cases hh
        rfl

theorem resolveDeparture_error {trip_id : String} {trip : Trip}
    {stop_time : StopTime} {date : Int}
    (h : stop_time.departure_time = none ∨ trip.trip_headsign = none) :
    ∀ b, resolveDeparture trip_id trip stop_time date ≠ .ok b := by
  intro b hok
  unfold resolveDeparture at hok
  cases hdt : stop_time.departure_time with
  | none => rw [hdt] at hok; cases hok
  | some offset =>
    rw [hdt] at hok
    cases hhs : trip.trip_headsign with
    | none => rw [hhs] at hok; cases hok
    | some headsign =>
      rcases h with h | h
      · rw [hdt] at h; cases h
      · rw [hhs] at h; cases h

/-- C1: for every trip and stop-visit, the Departure Expander emits a resolved
departure for a candidate date `D` among yesterday/today/tomorrow iff the
stop-visit's stop id is in the station's stop-id set, its pickup policy is not
`NotAvailable`, and the trip's service pattern is active on `D` per the
Calendar Resolver; the emitted timestamp is midnight of `D` plus the
stop-visit's departure offset in seconds. -/
theorem expand_mem_iff (gtfs : Gtfs) (stop_ids : List String)
    (yesterday today tomorrow : Int) (l : List Departure)
    (h : expand gtfs stop_ids [yesterday, today, tomorrow] = .ok l)
    (dep : Departure) :
    dep ∈ l ↔ ∃ trip_id trip, (trip_id, trip) ∈ gtfs.trips ∧
      ∃ stop_time ∈ trip.stop_times, ∃ date ∈ [yesterday, today, tomorrow],
        stop_time.stop_id ∈ stop_ids ∧
        stop_time.pickup_type ≠ PickupDropOffType.NotAvailable ∧
        trip.service_id ∈ service_ids_for gtfs date ∧
        ∃ offset headsign, stop_time.departure_time = some offset ∧
          trip.trip_headsign = some headsign ∧
          dep = ⟨trip_id, date * 86400 + offset, headsign⟩ := by
  unfold expand at h
  rw [collectExcept_ok_mem h dep]
  constructor
  · rintro ⟨⟨trip_id, trip, stop_time, date⟩, hsel, hok⟩
    rw [mem_selectedVisits] at hsel
    obtain ⟨hp, hst, hsid, hpick, hd, hact⟩ := hsel
    obtain ⟨offset, headsign, ho, hh, rfl⟩ := resolveDeparture_ok.mp hok
    exact ⟨trip_id, trip, hp, stop_time, hst, date, hd, hsid, hpick, hact,
      offset, headsign, ho, hh, rfl⟩
  · rintro ⟨trip_id, trip, hp, stop_time, hst, date, hd, hsid, hpick, hact,
      offset, headsign, ho, hh, rfl⟩
    refine ⟨(trip_id, trip, stop_time, date), ?_, ?_⟩
    · rw [mem_selectedVisits]
      exact ⟨hp, hst, hsid, hpick, hd, hact⟩
    · rw [resolveDeparture_ok]
      exact ⟨offset, headsign, ho, hh, rfl⟩

theorem expand_mem_iff_witness :
    expand gtfsEx1 ["S"] [0, 1, 2] = .ok [⟨"T", 90000, "Dest"⟩] ∧
    (⟨"T", (0 : Int) * 86400 + 90000, "Dest"⟩ : Departure) ∈
      [(⟨"T", 90000, "Dest"⟩ : Departure)] :=
  ⟨by decide,
    (expand_mem_iff gtfsEx1 ["S"] 0 1 2 [⟨"T", 90000, "Dest"⟩] (by decide)
        ⟨"T", (0 : Int) * 86400 + 90000, "Dest"⟩).mpr
      ⟨"T", ⟨"sv", some "Dest", [⟨"S", .Regular, some 90000⟩]⟩, by decide,
        ⟨"S", .Regular, some 90000⟩, by decide, 0, by decide, by decide,
        by decide, by decide, 90000, "Dest", rfl, rfl, rfl⟩⟩

/-- C7: if a stop-visit selected for expansion (stop id in the station's set,
pickup allowed, service pattern active on a candidate date) lacks a departure
offset, or its trip lacks a headsign, the whole expansion fails with an error:
no list of departures is produced at all, so no record is substituted or
silently skipped. -/
theorem expand_missing_field_fatal (gtfs : Gtfs) (stop_ids : List String)
    (dates : List Int) (trip_id : String) (trip : Trip) (stop_time : StopTime)
    (date : Int)
    (hsel : (trip_id, trip, stop_time, date) ∈ selectedVisits gtfs stop_ids dates)
    (hmiss : stop_time.departure_time = none ∨ trip.trip_headsign = none) :
    ∃ e, expand gtfs stop_ids dates = .error e := by
  cases hexp : expand gtfs stop_ids dates with
  | error e => exact ⟨e, rfl⟩
  | ok l =>
    exfalso
    unfold expand at hexp
    obtain ⟨b, hb⟩ := collectExcept_ok_forall hexp (trip_id, trip, stop_time, date) hsel
    exact resolveDeparture_error hmiss b hb

theorem expand_missing_field_fatal_witness :
    ∃ e, expand gtfsEx7 ["S"] [0, 1, 2] = .error e :=
  expand_missing_field_fatal gtfsEx7 ["S"] [0, 1, 2] "T"
    ⟨"sv", some "H", [⟨"S", .Regular, none⟩]⟩ ⟨"S", .Regular, none⟩ 0
    (by decide) (Or.inl rfl)

/-- C8 counterexample: station `Gare` maps to the two stop ids `S1`, `S2`, and
trip `T` appears at both with the same active date; the pipeline output
contains the trip's departure twice, not once as the claim states. -/
theorem pipeline_duplicate_stop_cex :
    stopIdsFor gtfsEx8 "Gare" = ["S1", "S2"] ∧
    pipeline gtfsEx8 feedNone ["S1", "S2"] 0 1 2 86400 10800 =
      .ok [⟨"T", 115200, "H"⟩, ⟨"T", 115200, "H"⟩] ∧
    ((([⟨"T", 115200, "H"⟩, ⟨"T", 115200, "H"⟩] : List Departure).filter
      (fun dep => dep.trip_id == "T")).length = 1 → False) := by
  refine ⟨by decide, by decide, by decide⟩

/-- C8 (amended): the pipeline unions the departures found at the station's
stop ids, emitting exactly one entry per selected (stop-visit, active date)
pair; no deduplication is performed, so a trip appearing at two of the
station's stop ids on the same active date yields two entries. -/
theorem expand_length (gtfs : Gtfs) (stop_ids : List String) (dates : List Int)
    (l : List Departure) (h : expand gtfs stop_ids dates = .ok l) :
    l.length = (selectedVisits gtfs stop_ids dates).length := by
  unfold expand at h
  exact collectExcept_ok_length h

theorem expand_length_witness :
    ([⟨"T", 115200, "H"⟩, ⟨"T", 115200, "H"⟩] : List Departure).length =
      (selectedVisits gtfsEx8 ["S1", "S2"] [0, 1, 2]).length :=
  expand_length gtfsEx8 ["S1", "S2"] [0, 1, 2]
    [⟨"T", 115200, "H"⟩, ⟨"T", 115200, "H"⟩] (by decide)

theorem findSome?_stopDelayStep (stop_ids : List String)
    (l : List StopTimeUpdate) :
    l.findSome? (stopDelayStep stop_ids) =
      (l.find? (fun stop =>
        match stop.stop_id with
        | some sid => decide (sid ∈ stop_ids)
        | none => false)).map
        (fun stop => stop.departure.bind (fun event => event.delay)) := by
  induction l with
  | nil => rfl
  | cons s l ih =>
    cases hsid : s.stop_id with
    | none =>
      have hstep : stopDelayStep stop_ids s = none := by
        unfold stopDelayStep
        rw [hsid]
        rfl
      have hpred : (match s.stop_id with
          | some sid => decide (sid ∈ stop_ids)
          | none => false) = false := by
        rw [hsid]
      simp [List.findSome?_cons, hstep, List.find?_cons, hpred, ih]
    | some sid =>
      by_cases hmem : sid ∈ stop_ids
      · have hstep : stopDelayStep stop_ids s =
            some (s.departure.bind (fun event => event.delay)) := by
          unfold stopDelayStep
          rw [hsid]
          simp [hmem]
        have hpred : (match s.stop_id with
            | some sid => decide (sid ∈ stop_ids)
            | none => false) = true := by
          rw [hsid]
          simpa using hmem
        simp [List.findSome?_cons, hstep, List.find?_cons, hpred]
      · have hstep : stopDelayStep stop_ids s = none := by
          unfold stopDelayStep
          rw [hsid]
          simp [hmem]
        have hpred : (match s.stop_id with
            | some sid => decide (sid ∈ stop_ids)
            | none => false) = false := by
          rw [hsid]
          simpa using hmem
        simp [List.findSome?_cons, hstep, List.find?_cons, hpred, ih]

theorem entity_delay_step_eq (stop_ids : List String) (trip_id : String)
    (entity : FeedEntity) :
    entity.trip_update.bind (fun update =>
      update.trip.trip_id.bind (fun id =>
        if trip_id ≠ id then none
        else update.stop_time_update.findSome? (stopDelayStep stop_ids))) =
      (entity.trip_update.bind (fun update =>
        update.trip.trip_id.bind (fun id =>
          if trip_id ≠ id then none
          else firstMatchingStop stop_ids update))).map
        (fun stop => stop.departure.bind (fun event => event.delay)) := by
  obtain ⟨tu⟩ := entity
  cases tu with
  | none => rfl
  | some update =>
    obtain ⟨⟨tid⟩, stus⟩ := update
    cases tid with
    | none => rfl
    | some id =>
      by_cases h : trip_id ≠ id
      · simp [h]
      · simp only [Option.some_bind, if_neg h, Option.map_some]
        show stus.findSome? (stopDelayStep stop_ids) =
          (firstMatchingStop stop_ids ⟨⟨some id⟩, stus⟩).map
            (fun stop => stop.departure.bind (fun event => event.delay))
        rw [findSome?_stopDelayStep]
        rfl

/-- C3 (amended): the Realtime Matcher returns the departure delay, if
present, of the first stop-time update whose stop id is in the stop-id set,
taken from the first trip-id-matching feed entity that contains at least one
stop-id-matching update; if that first stop-id-matching update lacks a
departure delay, no delay is returned, even when a later stop-id-matching
update in the same trip-update carries one. -/
theorem findDelay_join_eq_amended (feed : FeedMessage) (stop_ids : List String)
    (trip_id : String) :
    (findDelay feed stop_ids trip_id).join =
      matchDelayAmended feed stop_ids trip_id := by
  unfold findDelay matchDelayAmended
  induction feed.entity with
  | nil => rfl
  | cons e l ih =>
    rw [List.findSome?_cons, List.findSome?_cons, entity_delay_step_eq]
    cases hge : e.trip_update.bind (fun update =>
        update.trip.trip_id.bind (fun id =>
          if trip_id ≠ id then none
          else firstMatchingStop stop_ids update)) with
    | none => simpa using ih
    | some stop => simp

/-- C3 counterexample: in `feedEx3`, trip `T`'s first stop-id-matching
stop-time update lacks a delay while the second carries delay 60; the claim
says 60 is returned, but the code returns no delay. -/
theorem findDelay_skips_later_delay_cex :
    (findDelay feedEx3 ["S"] "T").join = none ∧
    matchDelayClaimed feedEx3 ["S"] "T" = some 60 ∧
    (findDelay feedEx3 ["S"] "T").join ≠ matchDelayClaimed feedEx3 ["S"] "T" := by
  refine ⟨by decide, by decide, by decide⟩

/-- C4: for every resolved departure, a matched delay `d` (possibly negative)
is added to the scheduled timestamp, and the absence of a match leaves the
departure unchanged. -/
theorem applyDelay_timestamp (feed : FeedMessage) (stop_ids : List String)
    (dep : Departure) (d : Int) :
    ((findDelay feed stop_ids dep.trip_id).join = some d →
      (applyDelay feed stop_ids dep).time = dep.time + d) ∧
    ((findDelay feed stop_ids dep.trip_id).join = none →
      applyDelay feed stop_ids dep = dep) := by
  unfold applyDelay
  cases h : (findDelay feed stop_ids dep.trip_id).join with
  | none =>
    refine ⟨fun hc => ?_, fun _ => rfl⟩
    cases hc
  | some d0 =>
    refine ⟨fun hc => ?_, fun hc => Option.noConfusion hc⟩
    injection hc with hd
    rw [hd]

theorem applyDelay_timestamp_witness :
    (applyDelay feedEx4 ["S"] ⟨"T", 28800, "H"⟩).time = 28800 + 120 :=
  (applyDelay_timestamp feedEx4 ["S"] ⟨"T", 28800, "H"⟩ 120).1 (by decide)

/-- C10: the delay-adjustment step modifies only the timestamp of a resolved
departure; its trip id and headsign are unchanged whether or not a delay was
matched. -/
theorem applyDelay_frame (feed : FeedMessage) (stop_ids : List String)
    (dep : Departure) :
    (applyDelay feed stop_ids dep).trip_id = dep.trip_id ∧
    (applyDelay feed stop_ids dep).headsign = dep.headsign := by
  unfold applyDelay
  cases (findDelay feed stop_ids dep.trip_id).join with
  | none => exact ⟨rfl, rfl⟩
  | some d => exact ⟨rfl, rfl⟩

/-- C5: the Window Filter retains a departure iff
`now ≤ timestamp ≤ upperBound`, both bounds inclusive, where `upperBound` is
the `DAY_TRANSITION` (02:00) cutoff instant on tomorrow when the current
local time is strictly after the cutoff and on today otherwise. -/
theorem windowFilter_mem_iff (deps : List Departure)
    (current_naive current_time today tomorrow : Int) (dep : Departure) :
    dep ∈ windowFilter current_naive (upperBound today tomorrow current_time) deps ↔
      dep ∈ deps ∧ current_naive ≤ dep.time ∧
        dep.time ≤ (if DAY_TRANSITION < current_time
          then tomorrow * 86400 + DAY_TRANSITION
          else today * 86400 + DAY_TRANSITION) := by
  simp [windowFilter, upperBound, List.mem_filter, and_assoc]

theorem filter_orderedInsert_time (x : Departure) (ts : Int) :
    ∀ l : List Departure,
      (List.orderedInsert (fun a b => a.time ≤ b.time) x l).filter
          (fun dep => dep.time == ts) =
        if x.time = ts then x :: l.filter (fun dep => dep.time == ts)
        else l.filter (fun dep => dep.time == ts) := by
  intro l
  induction l with
  | nil =>
    by_cases h : x.time = ts <;> simp [List.orderedInsert, List.filter_cons, h]
  | cons y l ih =>
    show (if x.time ≤ y.time then x :: y :: l
        else y :: List.orderedInsert (fun a b => a.time ≤ b.time) x l).filter
          (fun dep => dep.time == ts) = _
    by_cases hxy : x.time ≤ y.time
    · rw [if_pos hxy, List.filter_cons]
      by_cases h : x.time = ts <;> simp [h]
    · rw [if_neg hxy, List.filter_cons, ih]
      by_cases h : x.time = ts
      · have hy : ¬ y.time = ts := by
          intro he
          apply hxy
          rw [h, he]
        rw [if_pos h]
        simp [List.filter_cons, h, hy]
      · rw [if_neg h]
        simp [List.filter_cons, h]

theorem filter_sortDeps_time (l : List Departure) (ts : Int) :
    (sortDeps l).filter (fun dep => dep.time == ts) =
      l.filter (fun dep => dep.time == ts) := by
  induction l with
  | nil => rfl
  | cons x l ih =>
    show (List.orderedInsert (fun a b => a.time ≤ b.time) x (sortDeps l)).filter
        (fun dep => dep.time == ts) = _
    rw [filter_orderedInsert_time, List.filter_cons]
    by_cases h : x.time = ts <;> simp [h, ih]

/-- C6: the final pipeline output is the pre-sort sequence sorted ascending by
departure timestamp, it is a permutation of that sequence, and the sort is
stable: the departures with any fixed timestamp appear in the output in their
original relative order (so inputs at 08:05, 08:00, 08:10 come out as 08:00,
08:05, 08:10). -/
theorem pipeline_sorted_stable (gtfs : Gtfs) (feed : FeedMessage)
    (stop_ids : List String)
    (yesterday today tomorrow current_naive current_time : Int)
    (pre : List Departure)
    (h : expand gtfs stop_ids [yesterday, today, tomorrow] = .ok pre) :
    ∀ inp : List Departure,
      inp = windowFilter current_naive (upperBound today tomorrow current_time)
        (pre.map (applyDelay feed stop_ids)) →
      pipeline gtfs feed stop_ids yesterday today tomorrow current_naive
          current_time = .ok (sortDeps inp) ∧
        List.Perm (sortDeps inp) inp ∧
        List.Pairwise (fun a b : Departure => a.time ≤ b.time) (sortDeps inp) ∧
        ∀ ts : Int, (sortDeps inp).filter (fun dep => dep.time == ts) =
          inp.filter (fun dep => dep.time == ts) := by
  intro inp hinp
  subst hinp
  refine ⟨?_, List.perm_insertionSort _ _, List.sorted_insertionSort _ _,
    fun ts => filter_sortDeps_time _ ts⟩
  unfold pipeline
  rw [h]
  rfl

theorem pipeline_sorted_stable_witness :
    pipeline gtfsEx6 feedNone ["S"] 0 1 2 97200 10800 =
      .ok (sortDeps (windowFilter 97200 (upperBound 1 2 10800)
        (preEx6.map (applyDelay feedNone ["S"])))) ∧
    sortDeps (windowFilter 97200 (upperBound 1 2 10800)
        (preEx6.map (applyDelay feedNone ["S"]))) =
      [⟨"B", 115200, "H"⟩, ⟨"A", 115500, "H"⟩, ⟨"C", 115800, "H"⟩] :=
  ⟨(pipeline_sorted_stable gtfsEx6 feedNone ["S"] 0 1 2 97200 10800 preEx6
      (by decide) _ rfl).1, by decide⟩

end TrainDisplay
